import Mathlib

/-!
Shallow embedding of the conversation-memory, request/response and file-ingestion
core of `deepseek-assistant.py`, together with proofs of the specification's
testable properties.

Modelling conventions:
* Python JSON-like values (`response.json()` results, message contents) are
  modelled by the inductive `Json`.
* The ambient `st.session_state` pair of lists (`messages`, `full_history`)
  is the explicit record `SessionState`; the methods of `ChatMemory` become
  pure state-passing functions parametrised by the bound `max_messages`.
* Python's negative list slice `lst[-m:]` (note `lst[-0:] = lst`) is
  `pyTailSlice`.
* A raised exception that is not caught is `Except.error ()`; `requests`-level
  failures are a `TransportOutcome` fed to `query_deepseek` as data.
-/

namespace DeepSeekAssistant

/-- JSON-like Python values, as produced by `response.json()`. -/
inductive Json where
  | null
  | str (s : String)
  | num (n : Int)
  | bool (b : Bool)
  | arr (elems : List Json)
  | obj (fields : List (String × Json))
deriving Repr

/-- Module constant `MAX_CONTEXT_MESSAGES = 8`. -/
def MAX_CONTEXT_MESSAGES : Nat := 8

/-- Module constant `MAX_FILE_CONTENT = 1000`. -/
def MAX_FILE_CONTENT : Nat := 1000

/-- One chat message dict `{"role": ..., "content": ...}`.  The `content`
is a `Json` value because `query_deepseek` stores the extracted response
object (normally a string) directly. -/
structure Msg where
  role : String
  content : Json
deriving Repr

/-- The two session-state lists used by `ChatMemory`:
`st.session_state.messages` (display log) and
`st.session_state.full_history` (context log). -/
structure SessionState where
  messages : List Msg
  full_history : List Msg
deriving Repr

/-- Session state right after `initialize_session` on a fresh session:
both lists empty. -/
def initialState : SessionState := ⟨[], []⟩

/-- The trimming loop in `ChatMemory.add_message`:
`while len(full_history) > max_messages: full_history.pop(0)`. -/
def trimLoop (m : Nat) : List Msg → List Msg
  | [] => []
  | x :: xs => if xs.length + 1 > m then trimLoop m xs else x :: xs

/-- `ChatMemory.add_message(role, content)` with bound `m = self.max_messages`:
appends the message to both lists, then pops from the front of
`full_history` while its length exceeds `m`. -/
def add_message (m : Nat) (st : SessionState) (role : String) (content : Json) :
    SessionState :=
  { messages := st.messages ++ [⟨role, content⟩],
    full_history := trimLoop m (st.full_history ++ [⟨role, content⟩]) }

/-- Python's slice `lst[-m:]` for a natural `m`: for `m = 0` this is
`lst[0:] = lst` (Python has no negative zero), otherwise the last
`min m (length lst)` elements. -/
def pyTailSlice (m : Nat) (l : List Msg) : List Msg :=
  if m = 0 then l else l.drop (l.length - m)

/-- `ChatMemory.get_context(system_prompt)`:
`[{"role": "system", "content": system_prompt}] + full_history[-max_messages:]`.
The embedding is a pure function of the state (the Python method builds a
fresh list with `+` and never writes to the session state). -/
def get_context (m : Nat) (st : SessionState) (system_prompt : String) : List Msg :=
  ⟨"system", .str system_prompt⟩ :: pyTailSlice m st.full_history

/-- `ChatMemory.clear_memory()`: resets both lists. -/
def clear_memory (_st : SessionState) : SessionState := ⟨[], []⟩

/-- Runs a sequence of `add_message` calls (role/content pairs), left to right. -/
def applyAdds (m : Nat) (st : SessionState) : List (String × Json) → SessionState
  | [] => st
  | (r, c) :: rest => applyAdds m (add_message m st r c) rest

/-- View of a role/content pair as the message dict `add_message` builds. -/
def mkMsg (rc : String × Json) : Msg := ⟨rc.1, rc.2⟩

/-- Spec-side notion used by §4.1/§8 of the spec: the "last `m` entries" of a
list, mathematically (for `m = 0` this is the empty list).  This is
`List.rtake`; it is kept as a separate named definition because the spec's
wording is compared against the code's `pyTailSlice`. -/
def lastEntries (m : Nat) (l : List Msg) : List Msg := l.drop (l.length - m)

/-- Python dict field lookup on the association list of an object
(keys in a parsed JSON object are unique; first match is taken). -/
def lookupField : List (String × Json) → String → Option Json
  | [], _ => none
  | (k, v) :: rest, key => if k = key then some v else lookupField rest key

/-- Python `value.get(key, default)`: defined on dicts only; on any other
value the attribute access raises (`AttributeError`), modelled as
`Except.error ()`. -/
def pyDictGet (j : Json) (key : String) (dflt : Json) : Except Unit Json :=
  match j with
  | .obj fields => .ok ((lookupField fields key).getD dflt)
  | _ => .error ()

/-- Python `value[0]`: the first element of a list (raising `IndexError`
when the list is empty), the first character of a string (raising on the
empty string), and a raised `TypeError`/`KeyError` on any other value. -/
def pyIndexZero (j : Json) : Except Unit Json :=
  match j with
  | .arr (x :: _) => .ok x
  | .str s =>
    match s.data with
    | c :: _ => .ok (.str (String.singleton c))
    | [] => .error ()
  | _ => .error ()

/-- The content extraction on line 98 of `query_deepseek`:
`response_data.get("choices", [{}])[0].get("message", {}).get("content", "")`.
An `error` result is a raised exception (not caught by the surrounding
`except requests.exceptions.RequestException`). -/
def extractContent (response_data : Json) : Except Unit Json :=
  match pyDictGet response_data "choices" (.arr [.obj []]) with
  | .error e => .error e
  | .ok choices =>
    match pyIndexZero choices with
    | .error e => .error e
    | .ok first =>
      match pyDictGet first "message" (.obj []) with
      | .error e => .error e
      | .ok msg => pyDictGet msg "content" (.str "")

/-- Outcome of the single `requests.post` call, as seen by `query_deepseek`:
either `requests.post` itself raises a `RequestException` (connection
error, timeout), or a response with a status code and a JSON body arrives. -/
inductive TransportOutcome where
  | requestError
  | response (status : Nat) (body : Json)

/-- `query_deepseek(prompt, system_prompt, memory, ...)` restricted to its
observable effect on the result value and the session state; the request
payload assembly does not influence either.  Mirrors the source:
`response.raise_for_status()` raises `HTTPError` (a `RequestException`,
hence caught, returning `None`) exactly when `status >= 400`; on
`status == 200` the content is extracted (a raised `IndexError`/`TypeError`
there propagates uncaught, state untouched), then the user turn and the
assistant turn are appended via `add_message` and `response_data` is
returned; any other status falls through to `return None`. -/
def query_deepseek (prompt : String) (m : Nat) (st : SessionState)
    (tr : TransportOutcome) : Except Unit (Option Json) × SessionState :=
  match tr with
  | .requestError => (.ok none, st)
  | .response status body =>
    if 400 ≤ status then
      (.ok none, st)
    else if status = 200 then
      match extractContent body with
      | .error _ => (.error (), st)
      | .ok assistant_response =>
        let st1 := add_message m st "user" (.str prompt)
        let st2 := add_message m st1 "assistant" assistant_response
        (.ok (some body), st2)
    else
      (.ok none, st)

/-- Python `s[:n]` on a string: the first `n` characters. -/
def strTake (s : String) (n : Nat) : String := ⟨s.data.take n⟩

/-- Result of the extraction attempt on one uploaded file:
for a PDF, the per-page results of `page.extract_text()` (`none` models a
page whose text cannot be extracted, i.e. a `None` return coerced by
`or ""`); for any other declared type, the text produced by
`file.read().decode("utf-8", errors="replace")`, which is total;
`unreadable` models any exception raised while processing the file
(corrupt PDF, failing read), caught per file by the `except` clause. -/
inductive FilePayload where
  | pdf (pages : List (Option String))
  | plainText (text : String)
  | unreadable

/-- One uploaded file: its name, its declared MIME type and what the
relevant extraction yields on it. -/
structure UploadedFile where
  name : String
  ftype : String
  payload : FilePayload

/-- Joining of PDF page texts:  `" ".join(page.extract_text() or "" for ...)`. -/
def joinPages (pages : List (Option String)) : String :=
  String.intercalate " " (pages.map (fun p => p.getD ""))

/-- Processing of a single file inside the loop of `process_uploaded_files`:
`some snippet` when the file contributes a snippet, `none` when an
exception was caught for it (which only logs and warns). -/
def processFile (f : UploadedFile) : Option String :=
  if f.ftype = "application/pdf" then
    match f.payload with
    | .pdf pages =>
      some ("PDF_CONTENT:" ++ f.name ++ ": "
        ++ strTake (joinPages pages) MAX_FILE_CONTENT ++ "...")
    | _ => none
  else
    match f.payload with
    | .plainText text =>
      some ("FILE_CONTENT:" ++ f.name ++ ": "
        ++ strTake text MAX_FILE_CONTENT ++ "...")
    | _ => none

/-- `process_uploaded_files(files)`: the newline-join of the snippets of the
successfully processed files, in input order. -/
def process_uploaded_files (files : List UploadedFile) : String :=
  String.intercalate "\n" (files.filterMap processFile)

/-- Response body `{"choices": [{"message": {"content": ""}}]}`: a 2xx body
whose extracted assistant content is the empty string. -/
def emptyContentBody : Json :=
  .obj [("choices", .arr [.obj [("message", .obj [("content", .str "")])]])]

/-- Response body `{"choices": []}`: the `choices` field is present but its
first element is missing. -/
def emptyChoicesBody : Json := .obj [("choices", .arr [])]

/-- Predicate on transport outcomes singling out the transport-level
failures of the claim: `requests.post` raising, or a response whose status
is not 2xx. -/
def isTransportFailure : TransportOutcome → Prop
  | .requestError => True
  | .response status _ => ¬ (200 ≤ status ∧ status < 300)

end DeepSeekAssistant

namespace DeepSeekAssistant

theorem lastEntries_eq_rtake (m : Nat) (l : List Msg) :
    lastEntries m l = l.rtake m := rfl

theorem trimLoop_eq_lastEntries (m : Nat) (l : List Msg) :
    trimLoop m l = lastEntries m l := by
  induction l with
  | nil => simp [trimLoop, lastEntries]
  | cons x xs ih =>
    simp only [trimLoop]
    by_cases h : xs.length + 1 > m
    · rw [if_pos h, ih]
      have hlen : (x :: xs).length - m = (xs.length - m) + 1 := by
        simp only [List.length_cons]; omega
      simp only [lastEntries, hlen, List.drop_succ_cons]
    · rw [if_neg h]
      have hlen : (x :: xs).length - m = 0 := by
        simp only [List.length_cons]; omega
      simp only [lastEntries, hlen, List.drop_zero]

theorem length_lastEntries_le (m : Nat) (l : List Msg) :
    (lastEntries m l).length ≤ m := by
  simp only [lastEntries, List.length_drop]
  omega

theorem applyAdds_messages (m : Nat) (ops : List (String × Json)) (st : SessionState) :
    (applyAdds m st ops).messages = st.messages ++ ops.map mkMsg := by
  induction ops generalizing st with
  | nil => simp [applyAdds]
  | cons op rest ih =>
    obtain ⟨r, c⟩ := op
    simp [applyAdds, ih, add_message, mkMsg]

theorem take_append_take_eq (n : Nat) (a b : List Msg) :
    (a ++ b.take n).take n = (a ++ b).take n := by
  rw [List.take_append_eq_append_take, List.take_append_eq_append_take,
    List.take_take]
  congr 1
  exact congrArg (fun k => List.take k b) (Nat.min_eq_left (Nat.sub_le n a.length))

theorem lastEntries_lastEntries_append (m : Nat) (l r : List Msg) :
    lastEntries m (lastEntries m l ++ r) = lastEntries m (l ++ r) := by
  simp only [lastEntries_eq_rtake, List.rtake_eq_reverse_take_reverse,
    List.reverse_append, List.reverse_reverse]
  rw [take_append_take_eq]

theorem applyAdds_full_history (m : Nat) (ops : List (String × Json))
    (st : SessionState) (h : st.full_history.length ≤ m) :
    (applyAdds m st ops).full_history
      = lastEntries m (st.full_history ++ ops.map mkMsg) := by
  induction ops generalizing st with
  | nil =>
    simp only [applyAdds, List.map_nil, List.append_nil, lastEntries]
    rw [show st.full_history.length - m = 0 by omega, List.drop_zero]
  | cons op rest ih =>
    obtain ⟨r, c⟩ := op
    simp only [applyAdds, List.map_cons]
    rw [ih (add_message m st r c)
      (by simpa [add_message, trimLoop_eq_lastEntries] using
        length_lastEntries_le m (st.full_history ++ [⟨r, c⟩]))]
    simp only [add_message, trimLoop_eq_lastEntries]
    rw [lastEntries_lastEntries_append]
    simp [mkMsg]

/-- C1: for every bound `max_messages` and every sequence of `add_message`
calls from a fresh session, the context log (`full_history`) never has
length greater than `max_messages` after any call, and the display log
(`messages`) has length equal to the total number of calls made.  Any
intermediate moment is covered because the sequence `ops` is arbitrary. -/
theorem contextLog_bounded_and_displayLog_counts (m : Nat)
    (ops : List (String × Json)) :
    ((applyAdds m initialState ops).full_history).length ≤ m ∧
    ((applyAdds m initialState ops).messages).length = ops.length := by
  constructor
  · rw [applyAdds_full_history m ops initialState (by simp [initialState])]
    exact length_lastEntries_le _ _
  · rw [applyAdds_messages]
    simp [initialState]

/-- C6: eviction from the context log is strictly FIFO: after any sequence
of `add_message` calls the context log equals the last `max_messages`
entries of the appended sequence, in chronological order, and the appended
sequence splits as the evicted (older) prefix followed by the retained
log — so every retained message was appended later than every evicted one. -/
theorem eviction_is_fifo (m : Nat) (ops : List (String × Json)) :
    (applyAdds m initialState ops).full_history = lastEntries m (ops.map mkMsg) ∧
    ops.map mkMsg
      = (ops.map mkMsg).take ((ops.map mkMsg).length - m)
        ++ (applyAdds m initialState ops).full_history := by
  have h0 : initialState.full_history = [] := rfl
  have h := applyAdds_full_history m ops initialState (by rw [h0]; exact Nat.zero_le m)
  rw [h0, List.nil_append] at h
  refine ⟨h, ?_⟩
  rw [h]
  exact (List.take_append_drop _ _).symm

/-- C7: with `max_messages = 0`, after any sequence of `add_message` calls,
`get_context p` returns exactly the single system message for `p` (the
trimming loop empties the context log, and the slice of the empty list is
empty even though Python's `lst[-0:]` is the whole list). -/
theorem max_zero_context_only_system (ops : List (String × Json)) (p : String) :
    get_context 0 (applyAdds 0 initialState ops) p = [⟨"system", .str p⟩] := by
  have h0 : initialState.full_history = [] := rfl
  have h := applyAdds_full_history 0 ops initialState (by rw [h0]; exact Nat.zero_le 0)
  rw [h0, List.nil_append] at h
  simp only [lastEntries, Nat.sub_zero, List.drop_length] at h
  simp [get_context, pyTailSlice, h]

/-- C5, counterexample: for a memory with `max_messages = 0` whose context
log holds one message, `get_context` does not return the system message
followed by the last `0` entries (it returns the system message followed by
the whole log, because Python's `lst[-0:]` is `lst`). -/
theorem get_context_zero_bound_cex :
    get_context 0 ⟨[], [⟨"user", .str "hi"⟩]⟩ "p"
      ≠ ⟨"system", .str "p"⟩ :: lastEntries 0 [⟨"user", .str "hi"⟩] := by
  intro h
  have hl := congrArg List.length h
  simp [get_context, pyTailSlice, lastEntries] at hl

/-- C5, amended: for every log state and prompt `p`, when `max_messages ≥ 1`
`get_context p` is the system message for `p` followed by the last
`max_messages` entries of the context log; when `max_messages = 0` it is the
system message followed by the *entire* context log (`lst[-0:] = lst`) — the
two coincide on every state reachable through `add_message`, whose log is
then empty; in all cases the result begins with the system message for `p`,
and as a pure function of the state the call mutates neither log. -/
theorem get_context_shape (m : Nat) (st : SessionState) (p : String) :
    (1 ≤ m → get_context m st p
        = ⟨"system", .str p⟩ :: lastEntries m st.full_history) ∧
    (m = 0 → get_context m st p = ⟨"system", .str p⟩ :: st.full_history) ∧
    (get_context m st p).head? = some ⟨"system", .str p⟩ := by
  refine ⟨?_, ?_, ?_⟩
  · intro hm
    simp only [get_context, pyTailSlice, lastEntries]
    rw [if_neg (by omega)]
  · intro hm
    simp [get_context, pyTailSlice, hm]
  · rfl

/-- Witness for the amended C5 at `max_messages = 8` and a one-entry log. -/
theorem get_context_shape_wit :
    1 ≤ 8 ∧ get_context 8 ⟨[], [⟨"user", .str "hi"⟩]⟩ "p"
      = ⟨"system", .str "p"⟩ :: lastEntries 8 [⟨"user", .str "hi"⟩] :=
  ⟨by decide, (get_context_shape 8 ⟨[], [⟨"user", .str "hi"⟩]⟩ "p").1 (by decide)⟩

/-- C4: on every transport-level failure — `requests.post` raising a
connection error or timeout, or a response with a non-2xx status —
`query_deepseek` returns `None` instead of raising to the caller, and the
session state (both logs) is exactly what it was before the call. -/
theorem transport_failure_returns_none_memory_unchanged (prompt : String)
    (m : Nat) (st : SessionState) (tr : TransportOutcome)
    (h : isTransportFailure tr) :
    query_deepseek prompt m st tr = (.ok none, st) := by
  match tr with
  | .requestError => rfl
  | .response status body =>
    have h2 : ¬ (200 ≤ status ∧ status < 300) := h
    simp only [query_deepseek]
    by_cases h4 : 400 ≤ status
    · rw [if_pos h4]
    · rw [if_neg h4, if_neg (by omega)]

/-- Witness for C4: a 503 response gives back `None` with memory unchanged. -/
theorem transport_failure_returns_none_memory_unchanged_wit :
    isTransportFailure (.response 503 (.obj [])) ∧
    query_deepseek "hi" 8 initialState (.response 503 (.obj []))
      = (.ok none, initialState) :=
  ⟨by show ¬ (200 ≤ 503 ∧ 503 < 300); omega,
    transport_failure_returns_none_memory_unchanged "hi" 8 initialState
      (.response 503 (.obj [])) (by show ¬ (200 ≤ 503 ∧ 503 < 300); omega)⟩

/-- C2, counterexample: on the 200 response `{"choices": [{"message":
{"content": ""}}]}` the extracted content is the empty string, yet memory
*is* mutated — two messages are appended to the display log and two to the
context log (a user turn and an empty assistant turn), contradicting the
claimed "no memory mutation on empty content". -/
theorem emptyContent_mutates_memory_cex :
    extractContent emptyContentBody = .ok (.str "") ∧
    ((query_deepseek "hi" 8 initialState
        (.response 200 emptyContentBody)).2).messages.length = 2 ∧
    ((query_deepseek "hi" 8 initialState
        (.response 200 emptyContentBody)).2).full_history.length = 2 :=
  ⟨rfl, rfl, rfl⟩

/-- C2, amended: on a 200 response whose extracted assistant content is the
empty string, `query_deepseek` still appends the user prompt and then the
empty assistant message to both logs and returns the response data; the
"no valid response" notice is the caller's rendering concern only (the code
has no soft-failure path that skips the memory mutation). -/
theorem emptyContent_appends_turn (prompt : String) (m : Nat)
    (st : SessionState) (body : Json)
    (h : extractContent body = .ok (.str "")) :
    query_deepseek prompt m st (.response 200 body)
      = (.ok (some body),
          add_message m (add_message m st "user" (.str prompt))
            "assistant" (.str "")) := by
  simp [query_deepseek, h]

/-- Witness for the amended C2 on the concrete empty-content body. -/
theorem emptyContent_appends_turn_wit :
    extractContent emptyContentBody = .ok (.str "") ∧
    query_deepseek "q" 8 initialState (.response 200 emptyContentBody)
      = (.ok (some emptyContentBody),
          add_message 8 (add_message 8 initialState "user" (.str "q"))
            "assistant" (.str "")) :=
  ⟨rfl, emptyContent_appends_turn "q" 8 initialState emptyContentBody rfl⟩

/-- C3, counterexample: on the 200 body `{"choices": []}` the expected field
path is missing (the `choices` array has no first element), and the
extraction raises `IndexError` instead of returning the empty string; the
exception propagates out of `query_deepseek` (its `except` clause only
catches `requests.exceptions.RequestException`), leaving memory unchanged. -/
theorem emptyChoices_raises_cex :
    extractContent emptyChoicesBody = .error () ∧
    query_deepseek "hi" 8 initialState (.response 200 emptyChoicesBody)
      = (.error (), initialState) :=
  ⟨rfl, rfl⟩

/-- C3, amended: the extraction returns the empty string when the `choices`
key is missing from the response object, or when the first choice is a dict
without a `message` key, or when its `message` dict has no `content` key;
but when `choices` is present and is an *empty* array, the extraction
raises (`IndexError`) rather than defaulting. -/
theorem extract_missing_field_defaults (fields c0 mf : List (String × Json))
    (rest : List Json) :
    (lookupField fields "choices" = none →
      extractContent (.obj fields) = .ok (.str "")) ∧
    (lookupField fields "choices" = some (.arr (.obj c0 :: rest)) →
      lookupField c0 "message" = none →
      extractContent (.obj fields) = .ok (.str "")) ∧
    (lookupField fields "choices" = some (.arr (.obj c0 :: rest)) →
      lookupField c0 "message" = some (.obj mf) →
      lookupField mf "content" = none →
      extractContent (.obj fields) = .ok (.str "")) := by
  refine ⟨?_, ?_, ?_⟩
  · intro h1
    simp [extractContent, pyDictGet, pyIndexZero, lookupField, h1]
  · intro h1 h2
    simp [extractContent, pyDictGet, pyIndexZero, lookupField, h1, h2]
  · intro h1 h2 h3
    simp [extractContent, pyDictGet, pyIndexZero, lookupField, h1, h2, h3]

/-- Witness for the amended C3: the empty object has no `choices` key and
extraction yields the empty string. -/
theorem extract_missing_field_defaults_wit :
    lookupField [] "choices" = none ∧
    extractContent (.obj []) = .ok (.str "") :=
  ⟨rfl, (extract_missing_field_defaults [] [] [] []).1 rfl⟩

theorem strTake_length_le (s : String) (n : Nat) : (strTake s n).length ≤ n := by
  show (s.data.take n).length ≤ n
  simp only [List.length_take]
  omega

/-- C8: ingesting the single plain-text file `("a.txt", plain, b"hello")`
yields exactly `"FILE_CONTENT:a.txt: hello..."`, and every snippet produced
by the per-file processing decomposes as a kind prefix, the file name,
`": "`, at most `MAX_FILE_CONTENT` characters of extracted source text, and
the trailing ellipsis. -/
theorem plain_snippet_example_and_bound :
    process_uploaded_files [⟨"a.txt", "text/plain", .plainText "hello"⟩]
      = "FILE_CONTENT:a.txt: hello..." ∧
    ∀ (f : UploadedFile) (s : String), processFile f = some s →
      ∃ tag extract, (tag = "PDF_CONTENT:" ∨ tag = "FILE_CONTENT:") ∧
        s = tag ++ f.name ++ ": " ++ extract ++ "..." ∧
        extract.length ≤ MAX_FILE_CONTENT := by
  refine ⟨rfl, ?_⟩
  intro f s h
  obtain ⟨name, ftype, payload⟩ := f
  simp only [processFile] at h
  by_cases hp : ftype = "application/pdf"
  · rw [if_pos hp] at h
    cases payload with
    | pdf pages =>
      exact ⟨"PDF_CONTENT:", strTake (joinPages pages) MAX_FILE_CONTENT,
        Or.inl rfl, (Option.some.inj h).symm, strTake_length_le _ _⟩
    | plainText t => exact absurd h (by simp)
    | unreadable => exact absurd h (by simp)
  · rw [if_neg hp] at h
    cases payload with
    | pdf pages => exact absurd h (by simp)
    | plainText t =>
      exact ⟨"FILE_CONTENT:", strTake t MAX_FILE_CONTENT,
        Or.inr rfl, (Option.some.inj h).symm, strTake_length_le _ _⟩
    | unreadable => exact absurd h (by simp)

/-- Witness for C8's bounded-decomposition part at the `"hello"` example. -/
theorem plain_snippet_example_and_bound_wit :
    ∃ tag extract, (tag = "PDF_CONTENT:" ∨ tag = "FILE_CONTENT:") ∧
      "FILE_CONTENT:a.txt: hello..." = tag ++ "a.txt" ++ ": " ++ extract ++ "..." ∧
      extract.length ≤ MAX_FILE_CONTENT :=
  plain_snippet_example_and_bound.2 ⟨"a.txt", "text/plain", .plainText "hello"⟩
    "FILE_CONTENT:a.txt: hello..." rfl

/-- C9: a PDF file containing a page whose text cannot be extracted
(`extract_text()` returning `None`, coerced to `""` by `or ""`) still
yields a snippet — the page texts joined by a single space, the bad page
contributing empty text — identical to the snippet of the same PDF with the
bad pages replaced by empty pages, instead of the file (or the batch)
failing. -/
theorem pdf_bad_page_still_snippet (name : String)
    (pages : List (Option String)) (_h : none ∈ pages) :
    processFile ⟨name, "application/pdf", .pdf pages⟩
      = some ("PDF_CONTENT:" ++ name ++ ": "
          ++ strTake (String.intercalate " " (pages.map (fun p => p.getD "")))
              MAX_FILE_CONTENT
          ++ "...") ∧
    processFile ⟨name, "application/pdf", .pdf pages⟩
      = processFile ⟨name, "application/pdf",
          .pdf (pages.map (fun p => some (p.getD "")))⟩ := by
  constructor
  · rfl
  · have hmap : (pages.map (fun p => some (p.getD ""))).map
        (fun p : Option String => p.getD "") = pages.map (fun p => p.getD "") := by
      rw [List.map_map]
      rfl
    simp [processFile, joinPages, hmap]

/-- Witness for C9 at a one-page PDF whose only page is unextractable. -/
theorem pdf_bad_page_still_snippet_wit :
    none ∈ ([none] : List (Option String)) ∧
    processFile ⟨"doc.pdf", "application/pdf", .pdf [none]⟩
      = some ("PDF_CONTENT:" ++ "doc.pdf" ++ ": "
          ++ strTake (String.intercalate " "
              (([none] : List (Option String)).map (fun p => p.getD "")))
              MAX_FILE_CONTENT
          ++ "...") :=
  ⟨by simp, (pdf_bad_page_still_snippet "doc.pdf" [none] (by simp)).1⟩

/-- C10: every snippet the per-file processing produces — PDF or plain, and
whether or not the extracted text was long enough to be truncated — ends
with the ellipsis marker `"..."`, so the ellipsis does not distinguish
truncated from untruncated content. -/
theorem snippet_ends_with_ellipsis (f : UploadedFile) (s : String)
    (h : processFile f = some s) : ∃ t, s = t ++ "..." := by
  obtain ⟨name, ftype, payload⟩ := f
  simp only [processFile] at h
  by_cases hp : ftype = "application/pdf"
  · rw [if_pos hp] at h
    cases payload with
    | pdf pages =>
      exact ⟨"PDF_CONTENT:" ++ name ++ ": "
        ++ strTake (joinPages pages) MAX_FILE_CONTENT, (Option.some.inj h).symm⟩
    | plainText t => exact absurd h (by simp)
    | unreadable => exact absurd h (by simp)
  · rw [if_neg hp] at h
    cases payload with
    | pdf pages => exact absurd h (by simp)
    | plainText t =>
      exact ⟨"FILE_CONTENT:" ++ name ++ ": "
        ++ strTake t MAX_FILE_CONTENT, (Option.some.inj h).symm⟩
    | unreadable => exact absurd h (by simp)

/-- Witness for C10: the untruncated `"hello"` snippet still ends in
the ellipsis. -/
theorem snippet_ends_with_ellipsis_wit :
    ∃ t, "FILE_CONTENT:a.txt: hello..." = t ++ "..." :=
  snippet_ends_with_ellipsis ⟨"a.txt", "text/plain", .plainText "hello"⟩
    "FILE_CONTENT:a.txt: hello..." rfl

end DeepSeekAssistant
